import Mathlib

/-!
Verification of the cisco.ios legacy fact-collection module
(`plugins/module_utils/network/ios/facts/legacy/base.py`).

The Python source is a catalog of regular-expression scrapers.  We embed it
shallowly: device text is `List Char`, each Python regex is a term of a small
regex AST `RE`, and a backtracking matcher `reRun` reproduces Python `re`
semantics (leftmost match, greedy quantifiers, ordered alternation) for the
constructs those patterns use.  Python exceptions (KeyError, TypeError,
ValueError) are modelled by `Option`-valued functions returning `none`.

Note the source file begins with `from __future__ import division`, so the
`/` operator in it is TRUE division; we model its results in `ℚ`.  Every
integer quotient appearing in the concrete inputs below is exactly
representable as a binary64 float, so `ℚ` agrees with Python on them.
-/

/-- Device text is modelled as a list of characters. -/
abbrev S := List Char

/-- Python `\s` for the ASCII range: space, tab, newline, carriage return,
vertical tab, form feed. -/
def pySpace (c : Char) : Bool :=
  c == ' ' || c == '\t' || c == '\n' || c == '\x0d' || c == '\x0b' || c == '\x0c'

/-- Python `\d` (ASCII digits). -/
def pyDigit (c : Char) : Bool :=
  '0' ≤ c && c ≤ '9'

/-- Python `\S`. -/
def pyNonSpace (c : Char) : Bool :=
  !(pySpace c)

/-- Python `.` without `re.DOTALL`: any character except newline. -/
def pyDot (c : Char) : Bool :=
  c != '\n'

/-- Decimal digit string to natural number (Python `int` on a digit string). -/
def digitsToNat (l : S) : Nat :=
  l.foldl (fun a c => a * 10 + (c.toNat - 48)) 0

/-- Python `str.lower` restricted to ASCII letters (device text is ASCII). -/
def pyLower (l : S) : S :=
  l.map Char.toLower

/-- Python `str.lstrip()`. -/
def pyLstrip (l : S) : S :=
  l.dropWhile pySpace

/-- Python `str.strip()`. -/
def pyStrip (l : S) : S :=
  ((l.dropWhile pySpace).reverse.dropWhile pySpace).reverse

/-- Python `needle in hay` substring test. -/
def pyContains (hay needle : S) : Bool :=
  (List.range (hay.length + 1)).any (fun i => needle.isPrefixOf (hay.drop i))

/-- Fueled worker for `pySplit`. -/
def pySplitGo (sep : S) : Nat → S → S → List S
  | 0, acc, rest => [acc.reverse ++ rest]
  | fuel + 1, acc, rest =>
    if sep.isPrefixOf rest then
      acc.reverse :: pySplitGo sep fuel [] (rest.drop sep.length)
    else
      match rest with
      | [] => [acc.reverse]
      | c :: cs => pySplitGo sep fuel (c :: acc) cs

/-- Python `str.split(sep)` for a non-empty separator: split on every
non-overlapping occurrence, scanning left to right. -/
def pySplit (sep s : S) : List S :=
  pySplitGo sep (s.length + 1) [] s

/-- Python line-break characters recognised by `str.splitlines` (the repertoire
relevant to 8-bit device text; `\r\n` is handled as a single break by the
caller). -/
def pyLineBreak (c : Char) : Bool :=
  c == '\n' || c == '\x0d' || c == '\x0b' || c == '\x0c' ||
  c == '\x1c' || c == '\x1d' || c == '\x1e' || c == '\x85'

/-- Fueled worker for `pySplitLines`. -/
def pySplitLinesGo : Nat → S → S → List S
  | 0, acc, rest => [acc.reverse ++ rest]
  | fuel + 1, acc, rest =>
    match rest with
    | [] => if acc.isEmpty then [] else [acc.reverse]
    | '\x0d' :: '\n' :: cs => acc.reverse :: pySplitLinesGo fuel [] cs
    | c :: cs =>
      if pyLineBreak c then acc.reverse :: pySplitLinesGo fuel [] cs
      else pySplitLinesGo fuel (c :: acc) cs

/-- Python `str.splitlines()`: no trailing empty string, `\r\n` is one break. -/
def pySplitLines (s : S) : List S :=
  pySplitLinesGo (s.length + 1) [] s

/-! ### A small regex AST and backtracking matcher

The patterns in the source use only: literal text, single-character classes,
greedy `+` over a character class, greedy `?`, ordered alternation `|`,
capturing groups, and the `^` / `$` anchors (with or without `re.MULTILINE`).
-/

/-- Regex AST covering the constructs used by the source's patterns. -/
inductive RE where
  | eps
  | lit (l : S)
  | cls (p : Char → Bool)
  | plus (p : Char → Bool)
  | seq (a b : RE)
  | alt (a b : RE)
  | opt (a : RE)
  | grp (n : Nat) (a : RE)
  | bol
  | eol

/-- Capture list: `(group index, start, end)`; latest capture is first. -/
abbrev Caps := List (Nat × Nat × Nat)

/-- Try a greedy `+` of a character class: attempt the longest run first,
backtracking one character at a time (Python `re` semantics). -/
def plusTry (k : Nat → Option (Nat × Caps)) (i : Nat) : Nat → Option (Nat × Caps)
  | 0 => none
  | j + 1 =>
    match k (i + j + 1) with
    | some r => some r
    | none => plusTry k i j

/-- Character of `s` at index `i`, if any. -/
def nthChar (s : S) (i : Nat) : Option Char :=
  (s.drop i).head?

/-- Backtracking matcher in continuation-passing style.  `ml` is the
`re.MULTILINE` flag; `i` the current position, `c` the captures so far.
Alternatives and optionals are tried in Python's order (left / present
first), `plus` is greedy, so the first full match found is the one Python
reports. -/
def reRun (ml : Bool) (s : S) :
    RE → Nat → Caps → (Nat → Caps → Option (Nat × Caps)) → Option (Nat × Caps)
  | .eps, i, c, k => k i c
  | .lit l, i, c, k => if l.isPrefixOf (s.drop i) then k (i + l.length) c else none
  | .cls p, i, c, k =>
    match nthChar s i with
    | some ch => if p ch then k (i + 1) c else none
    | none => none
  | .plus p, i, c, k =>
    plusTry (fun j => k j c) i ((s.drop i).takeWhile p).length
  | .seq a b, i, c, k => reRun ml s a i c (fun j c2 => reRun ml s b j c2 k)
  | .alt a b, i, c, k =>
    match reRun ml s a i c k with
    | some r => some r
    | none => reRun ml s b i c k
  | .opt a, i, c, k =>
    match reRun ml s a i c k with
    | some r => some r
    | none => k i c
  | .grp n a, i, c, k => reRun ml s a i c (fun j c2 => k j ((n, i, j) :: c2))
  | .bol, i, c, k =>
    if i == 0 || (ml && nthChar s (i - 1) == some '\n') then k i c else none
  | .eol, i, c, k =>
    if i == s.length || (ml && nthChar s i == some '\n') ||
        (!ml && i + 1 == s.length && nthChar s i == some '\n') then
      k i c
    else none

/-- Result of a successful match: span and captures. -/
structure MatchRes where
  mstart : Nat
  mend : Nat
  caps : Caps
deriving Repr, DecidableEq

/-- Python `pattern.match(s)` attempted at position `i` (anchored there). -/
def reMatchAt (ml : Bool) (re : RE) (s : S) (i : Nat) : Option MatchRes :=
  match reRun ml s re i [] (fun j c => some (j, c)) with
  | some (j, c) => some ⟨i, j, c⟩
  | none => none

/-- Fueled scan for `re.search`: try successive start positions. -/
def reSearchGo (ml : Bool) (re : RE) (s : S) : Nat → Nat → Option MatchRes
  | _, 0 => none
  | i, fuel + 1 =>
    match reMatchAt ml re s i with
    | some r => some r
    | none => reSearchGo ml re s (i + 1) fuel

/-- Python `re.search`: leftmost match anywhere in the text. -/
def reSearch (ml : Bool) (re : RE) (s : S) : Option MatchRes :=
  reSearchGo ml re s 0 (s.length + 1)

/-- Captured text of group `n`, if the group participated in the match. -/
def capGet (m : MatchRes) (s : S) (n : Nat) : Option S :=
  match m.caps.find? (fun t => t.1 == n) with
  | some (_, st, en) => some ((s.drop st).take (en - st))
  | none => none

/-- Fueled scan for `re.findall`: repeated search, resuming at each match's
end (or one past its start for an empty match). -/
def reFindAllGo (ml : Bool) (re : RE) (s : S) : Nat → Nat → List MatchRes
  | _, 0 => []
  | i, fuel + 1 =>
    match reSearchGo ml re s i (s.length + 1) with
    | none => []
    | some r =>
      r :: reFindAllGo ml re s (if r.mstart < r.mend then r.mend else r.mstart + 1) fuel

/-- Python `re.findall`: all non-overlapping matches, left to right. -/
def reFindAll (ml : Bool) (re : RE) (s : S) : List MatchRes :=
  reFindAllGo ml re s 0 (s.length + 1)

/-- `re.findall` for a single-group pattern: the list of group-`n` captures. -/
def reFindAllGrp (ml : Bool) (re : RE) (n : Nat) (s : S) : List S :=
  (reFindAll ml re s).map (fun r => (capGet r s n).getD [])

/-- Fueled worker for `reSub`. -/
def reSubGo (ml : Bool) (re : RE) (s : S) : Nat → Nat → S
  | i, 0 => s.drop i
  | i, fuel + 1 =>
    match reSearchGo ml re s i (s.length + 1) with
    | none => s.drop i
    | some r =>
      ((s.drop i).take (r.mstart - i)) ++
        (if r.mstart < r.mend then reSubGo ml re s r.mend fuel
         else
           match nthChar s r.mstart with
           | some c => c :: reSubGo ml re s (r.mstart + 1) fuel
           | none => [])

/-- Python `re.sub(pattern, "", s)`: delete every non-overlapping match. -/
def reSub (ml : Bool) (re : RE) (s : S) : S :=
  reSubGo ml re s 0 (s.length + 1)

/-- Sequence a list of regexes. -/
def reSeq : List RE → RE
  | [] => .eps
  | [r] => r
  | r :: rest => .seq r (reSeq rest)

/-- Literal regex from a string literal. -/
def rlit (t : String) : RE :=
  .lit t.toList

/-! ### Association lists

Python `dict` with insertion order: overwriting keeps the original position,
a new key is appended at the end. -/

/-- Lookup (`d[k]`); `none` models a `KeyError` at use sites. -/
def alistGet {α : Type} : List (S × α) → S → Option α
  | [], _ => none
  | (k', v) :: rest, k => if k' == k then some v else alistGet rest k

/-- Assignment `d[k] = v` with Python dict ordering. -/
def alistSet {α : Type} : List (S × α) → S → α → List (S × α)
  | [], k, v => [(k, v)]
  | (k', v') :: rest, k, v =>
    if k' == k then (k, v) :: rest else (k', v') :: alistSet rest k v

/-! ### Default extractor -/

/-- Pattern `r"board ID (\S+)"` of `Default.parse_serialnum`. -/
def serialnumRE : RE :=
  reSeq [rlit "board ID ", .grp 1 (.plus pyNonSpace)]

/-- `Default.parse_serialnum`: `re.search(r"board ID (\S+)", data)`, group 1. -/
def parse_serialnum (data : S) : Option S :=
  (reSearch false serialnumRE data).bind (fun r => capGet r data 1)

/-- Pattern `r"Router\soperating\smode: (\S+)"` of `Default.parse_operatingmode`. -/
def opmodeRE : RE :=
  reSeq [rlit "Router", .cls pySpace, rlit "operating", .cls pySpace,
         rlit "mode: ", .grp 1 (.plus pyNonSpace)]

/-- `Default.parse_operatingmode`: "autonomous" when the mode pattern matches
with a word containing "autonomous" (lower-cased), or when `iostype` is
`"IOS"`; otherwise "controller". -/
def parse_operatingmode (data : S) (iostype : S) : S :=
  let m := (reSearch false opmodeRE data).bind (fun r => capGet r data 1)
  if (match m with
      | some w => pyContains (pyLower w) "autonomous".toList
      | none => false) || iostype == "IOS".toList then
    "autonomous".toList
  else
    "controller".toList

/-- Pattern `r"^Model [Nn]umber\s+: (\S+)"` (with `re.M`) of `Default.parse_stacks`. -/
def modelRE : RE :=
  reSeq [.bol, rlit "Model ", .cls (fun c => c == 'N' || c == 'n'), rlit "umber",
         .plus pySpace, rlit ": ", .grp 1 (.plus pyNonSpace)]

/-- Pattern `r"^System [Ss]erial [Nn]umber\s+: (\S+)"` (with `re.M`). -/
def systemSerialRE : RE :=
  reSeq [.bol, rlit "System ", .cls (fun c => c == 'S' || c == 's'), rlit "erial ",
         .cls (fun c => c == 'N' || c == 'n'), rlit "umber",
         .plus pySpace, rlit ": ", .grp 1 (.plus pyNonSpace)]

/-- The three facts written by `Default.parse_stacks`; an absent dict key is
`none`. -/
structure StackFacts where
  stacked_models : Option (List S) := none
  stacked_serialnums : Option (List S) := none
  virtual_switch : Option S := none
deriving Repr, DecidableEq

/-- `Default.parse_stacks`: each `findall` result is stored only when
non-empty (`if match:`), and `virtual_switch = "STACK"` exactly when the
`stacked_models` key was stored.  (In `Default.populate` no earlier step
writes these keys, so key presence coincides with a non-empty `findall`.) -/
def parse_stacks (data : S) : StackFacts :=
  let models := reFindAllGrp true modelRE 1 data
  let serials := reFindAllGrp true systemSerialRE 1 data
  let f : StackFacts :=
    { stacked_models := if models == [] then none else some models
      stacked_serialnums := if serials == [] then none else some serials }
  if f.stacked_models.isSome then { f with virtual_switch := some "STACK".toList } else f

/-! ### Hardware extractor -/

/-- Pattern `r"^Directory of (\S+)/"` shared by `parse_filesystems` (via
`re.findall` with `re.M`) and `parse_filesystems_info` (via `re.match` per
line). -/
def dirRE : RE :=
  reSeq [.bol, rlit "Directory of ", .grp 1 (.plus pyNonSpace), rlit "/"]

/-- `Hardware.parse_filesystems`. -/
def parse_filesystems (data : S) : List S :=
  reFindAllGrp true dirRE 1 data

/-- Pattern `r"^(\d+) bytes total \((\d+) bytes free\)"` of
`parse_filesystems_info`. -/
def bytesLineRE : RE :=
  reSeq [.bol, .grp 1 (.plus pyDigit), rlit " bytes total (",
         .grp 2 (.plus pyDigit), rlit " bytes free)"]

/-- Per-filesystem record of `parse_filesystems_info`.  The values are in `ℚ`
because the source computes `int(...) / 1024` under
`from __future__ import division`, i.e. true division. -/
structure FsInfo where
  spacetotal_kb : Option ℚ := none
  spacefree_kb : Option ℚ := none
deriving Repr, DecidableEq

/-- Group 1 of `re.match(r"^Directory of (\S+)/", line)`. -/
def dirLineMatch (line : S) : Option S :=
  (reMatchAt false dirRE line 0).bind (fun r => capGet r line 1)

/-- The two byte counts of a matching bytes line (`int` already applied). -/
def bytesLineMatch (line : S) : Option (Nat × Nat) :=
  (reMatchAt false bytesLineRE line 0).bind (fun r =>
    match capGet r line 1, capGet r line 2 with
    | some t, some fr => some (digitsToNat t, digitsToNat fr)
    | _, _ => none)

/-- Worker for `parse_filesystems_info`: a `Directory of X/` line opens a
record; a bytes line fills the currently open record.  A bytes line before
any directory line is a `KeyError` (`facts[fs]` with `fs = ""` unbound):
modelled as `none`. -/
def parse_filesystems_info_go : List S → S → List (S × FsInfo) → Option (List (S × FsInfo))
  | [], _, acc => some acc
  | line :: rest, fs, acc =>
    match dirLineMatch line with
    | some g => parse_filesystems_info_go rest g (alistSet acc g {})
    | none =>
      match bytesLineMatch line with
      | some (t, fr) =>
        match alistGet acc fs with
        | some _ =>
          parse_filesystems_info_go rest fs
            (alistSet acc fs
              { spacetotal_kb := some ((t : ℚ) / 1024)
                spacefree_kb := some ((fr : ℚ) / 1024) })
        | none => none
      | none => parse_filesystems_info_go rest fs acc

/-- `Hardware.parse_filesystems_info` (the source iterates `data.split("\n")`). -/
def parse_filesystems_info (data : S) : Option (List (S × FsInfo)) :=
  parse_filesystems_info_go (pySplit ['\n'] data) [] []

/-- Pattern `r"Processor\s+(\S+|\d+)\s+(?P<total>\d+)\s+\d+\s+(?P<free>\d+)"`
used by the memory section of `Hardware.populate` (groups: 1 = id,
2 = total, 3 = free). -/
def memLineRE : RE :=
  reSeq [rlit "Processor", .plus pySpace,
         .grp 1 (.alt (.plus pyNonSpace) (.plus pyDigit)), .plus pySpace,
         .grp 2 (.plus pyDigit), .plus pySpace, .plus pyDigit, .plus pySpace,
         .grp 3 (.plus pyDigit)]

/-- The `total` and `free` byte counts captured from one memory line, when
`re.match` succeeds on it. -/
def memLineMatch (line : S) : Option (Nat × Nat) :=
  (reMatchAt false memLineRE line 0).bind (fun r =>
    match capGet r line 2, capGet r line 3 with
    | some t, some fr => some (digitsToNat t, digitsToNat fr)
    | _, _ => none)

/-- Memory facts written by `Hardware.populate`; `warning` records the
"Unable to gather memory statistics" branch. -/
structure MemFacts where
  memtotal_mb : Option ℚ := none
  memfree_mb : Option ℚ := none
  warning : Bool := false
deriving Repr, DecidableEq

/-- One line of the memory loop in `Hardware.populate`: a matching line
overwrites `memtotal_mb` / `memfree_mb` with `int(group) / 1048576`
(true division, cf. `from __future__ import division`). -/
def memLineStep (acc : MemFacts) (line : S) : MemFacts :=
  match memLineMatch line with
  | some (t, fr) =>
    { acc with
      memtotal_mb := some ((t : ℚ) / 1048576)
      memfree_mb := some ((fr : ℚ) / 1048576) }
  | none => acc

/-- The memory section of `Hardware.populate`: skipped for empty data, a
warning when "Invalid input detected" occurs, otherwise the per-line loop
over `data.splitlines()`. -/
def memPopulate (data : S) : MemFacts :=
  if data == [] then {}
  else if pyContains data "Invalid input detected".toList then { warning := true }
  else (pySplitLines data).foldl memLineStep {}

/-! ### Config extractor

The source's substitution pattern is the raw triple-quoted string

    r"""^Building configuration
                ...\s+Current configuration : \d+ bytes\n"""

whose literal content is `^Building configuration` followed by a NEWLINE and
the sixteen spaces of the source file's indentation, then `...` (three regex
dots), `\s+`, and `Current configuration : \d+ bytes\n`.  We embed that
literal content exactly. -/

/-- The (reformatting-mangled) banner pattern of `Config.populate`,
with `re.MULTILINE`. -/
def configBannerRE : RE :=
  reSeq [.bol, rlit "Building configuration", rlit "\n                ",
         .cls pyDot, .cls pyDot, .cls pyDot, .plus pySpace,
         rlit "Current configuration : ", .plus pyDigit, rlit " bytes", rlit "\n"]

/-- `Config.populate`: for non-empty data, store `re.sub(banner, "", data)`
as the `config` fact; empty data stores nothing. -/
def config_populate (data : S) : Option S :=
  if data == [] then none else some (reSub true configBannerRE data)

/-! ### Interfaces extractor -/

/-- Pattern `r"^(\S+)"` used by `parse_interfaces` on a key line. -/
def keyRE : RE :=
  reSeq [.bol, .grp 1 (.plus pyNonSpace)]

/-- The key token of a line (`re.match(r"^(\S+)", line)`). -/
def keyOf (line : S) : Option S :=
  (reMatchAt false keyRE line 0).bind (fun r => capGet r line 1)

/-- Worker for `Interfaces.parse_interfaces`: empty lines are skipped; a line
whose first character is a space is appended (with a `"\n"` separator and
otherwise verbatim) to the block of the current key — a `KeyError` (`none`)
if no key line has been seen yet; a line matching `^(\S+)` opens/overwrites
the block for its token; any other line (e.g. starting with a tab) is
dropped. -/
def parse_interfaces_go : List S → S → List (S × S) → Option (List (S × S))
  | [], _, acc => some acc
  | line :: rest, key, acc =>
    match line with
    | [] => parse_interfaces_go rest key acc
    | c :: _ =>
      if c == ' ' then
        match alistGet acc key with
        | none => none
        | some v => parse_interfaces_go rest key (alistSet acc key (v ++ '\n' :: line))
      else
        match keyOf line with
        | some k => parse_interfaces_go rest k (alistSet acc k line)
        | none => parse_interfaces_go rest key acc

/-- `Interfaces.parse_interfaces` (iterates `data.split("\n")`, initial key
is the empty string with an empty dict). -/
def parse_interfaces (data : S) : Option (List (S × S)) :=
  parse_interfaces_go (pySplit ['\n'] data) [] []

/-- One `address/subnet` entry of an interface record. -/
structure IPPair where
  address : S
  subnet : S
deriving Repr, DecidableEq

/-- An interface record.  The outer `Option` of each attribute models dict
key presence (`none` = key absent), the inner `Option` models a stored
Python `None`.  `hwtype` is the Python key `"type"`. -/
structure IntfRecord where
  description : Option (Option S) := none
  macaddress : Option (Option S) := none
  mtu : Option (Option Nat) := none
  bandwidth : Option (Option Nat) := none
  mediatype : Option (Option S) := none
  duplex : Option (Option S) := none
  lineprotocol : Option (Option S) := none
  operstatus : Option (Option S) := none
  hwtype : Option (Option S) := none
  ipv4 : Option (List IPPair) := none
  ipv6 : Option (List IPPair) := none
deriving Repr, DecidableEq

/-- The parts of the Interfaces facts tree touched by the address passes:
`facts["interfaces"]` (`none` = the key was never created because
`show interfaces` returned nothing) and the two flat address lists. -/
structure IntfFacts where
  interfaces : Option (List (S × IntfRecord)) := none
  all_ipv4_addresses : List S := []
  all_ipv6_addresses : List S := []
deriving Repr, DecidableEq

/-- Pattern `r"^(?:.+) is (.+),"` (with `re.M`) of `parse_operstatus`. -/
def operstatusRE : RE :=
  reSeq [.bol, .plus pyDot, rlit " is ", .grp 1 (.plus pyDot), rlit ","]

/-- `Interfaces.parse_operstatus`: group 1 of the first match, left-stripped. -/
def parse_operstatus (data : S) : Option S :=
  ((reSearch true operstatusRE data).bind (fun r => capGet r data 1)).map pyLstrip

/-- `Interfaces.parse_deleted_status` applied to a freshly created record:
back-fill `operstatus` only when the block's own status is `"deleted"`. -/
def applyDeletedStatus (rec : IntfRecord) (value : S) : IntfRecord :=
  if parse_operstatus value == some "deleted".toList then
    { rec with operstatus := some (some "deleted".toList) }
  else rec

/-- Pattern `r"Internet address is (.+)$"` (with `re.M`). -/
def internetAddrRE : RE :=
  reSeq [rlit "Internet address is ", .grp 1 (.plus pyDot), .eol]

/-- Pattern `r"Secondary address (.+)$"` (with `re.M`). -/
def secondaryAddrRE : RE :=
  reSeq [rlit "Secondary address ", .grp 1 (.plus pyDot), .eol]

/-- The loop body of `populate_ipv4_interfaces` over the collected address
strings: `addr, subnet = address.split("/")` raises `ValueError` (`none`)
unless the split has exactly two parts; otherwise the stripped address is
appended to the flat list and the pair to the record's `ipv4` list. -/
def ipv4AddrLoop (key : S) : IntfFacts → List S → Option IntfFacts
  | f, [] => some f
  | f, a :: rest =>
    match pySplit ['/'] a with
    | [addr, subnet] =>
      match f.interfaces with
      | some m =>
        match alistGet m key with
        | some rec =>
          match rec.ipv4 with
          | some l =>
            let addr' := pyStrip addr
            let pair : IPPair := ⟨addr', pyStrip subnet⟩
            ipv4AddrLoop key
              { f with
                all_ipv4_addresses := f.all_ipv4_addresses ++ [addr']
                interfaces := some (alistSet m key { rec with ipv4 := some (l ++ [pair]) }) }
              rest
          | none => none
        | none => none
      | none => none
    | _ => none

/-- One iteration of `populate_ipv4_interfaces` for a block `(key, value)`.
`facts["interfaces"][key]["ipv4"] = list()` raises `KeyError` when the key is
new; the handler creates a fresh record and back-fills a "deleted" status.
When `facts["interfaces"]` itself is missing the handler's own lookup raises
an uncaught `KeyError` (`none`).  Without a primary address the block is
skipped (`continue`); otherwise secondary addresses plus the first primary
address are appended. -/
def populate_ipv4_entry (f : IntfFacts) (key : S) (value : S) : Option IntfFacts :=
  match f.interfaces with
  | none => none
  | some m =>
    let m1 :=
      match alistGet m key with
      | some rec => alistSet m key { rec with ipv4 := some [] }
      | none => alistSet m key (applyDeletedStatus { ipv4 := some [] } value)
    let f1 := { f with interfaces := some m1 }
    let primary := reFindAllGrp true internetAddrRE 1 value
    let secondary := reFindAllGrp true secondaryAddrRE 1 value
    match primary with
    | [] => some f1
    | p :: _ => ipv4AddrLoop key f1 (secondary ++ [p])

/-- `Interfaces.populate_ipv4_interfaces`: iterate the parsed blocks in
insertion order. -/
def populate_ipv4_interfaces : IntfFacts → List (S × S) → Option IntfFacts
  | f, [] => some f
  | f, (k, v) :: rest =>
    match populate_ipv4_entry f k v with
    | some f1 => populate_ipv4_interfaces f1 rest
    | none => none

/-- Pattern `r"\s+(.+), subnet"` (with `re.M`) of `populate_ipv6_interfaces`. -/
def ipv6AddrRE : RE :=
  reSeq [.plus pySpace, .grp 1 (.plus pyDot), rlit ", subnet"]

/-- Pattern `r", subnet is (.+)$"` (with `re.M`). -/
def ipv6SubnetRE : RE :=
  reSeq [rlit ", subnet is ", .grp 1 (.plus pyDot), .eol]

/-- All captures of the IPv6 address pattern in a block. -/
def ipv6Addresses (value : S) : List S :=
  reFindAllGrp true ipv6AddrRE 1 value

/-- All captures of the IPv6 subnet pattern in a block. -/
def ipv6Subnets (value : S) : List S :=
  reFindAllGrp true ipv6SubnetRE 1 value

/-- The loop body of `populate_ipv6_interfaces` over `zip(addresses, subnets)`. -/
def ipv6AddrLoop (key : S) : IntfFacts → List (S × S) → Option IntfFacts
  | f, [] => some f
  | f, (addr, subnet) :: rest =>
    match f.interfaces with
    | some m =>
      match alistGet m key with
      | some rec =>
        match rec.ipv6 with
        | some l =>
          let addr' := pyStrip addr
          let pair : IPPair := ⟨addr', pyStrip subnet⟩
          ipv6AddrLoop key
            { f with
              all_ipv6_addresses := f.all_ipv6_addresses ++ [addr']
              interfaces := some (alistSet m key { rec with ipv6 := some (l ++ [pair]) }) }
            rest
        | none => none
      | none => none
    | none => none

/-- One iteration of `populate_ipv6_interfaces` for a block `(key, value)`:
same lazy-creation pattern as IPv4, then the positional
`zip(addresses, subnets)` pairing. -/
def populate_ipv6_entry (f : IntfFacts) (key : S) (value : S) : Option IntfFacts :=
  match f.interfaces with
  | none => none
  | some m =>
    let m1 :=
      match alistGet m key with
      | some rec => alistSet m key { rec with ipv6 := some [] }
      | none => alistSet m key (applyDeletedStatus { ipv6 := some [] } value)
    let f1 := { f with interfaces := some m1 }
    ipv6AddrLoop key f1 ((ipv6Addresses value).zip (ipv6Subnets value))

/-- `Interfaces.populate_ipv6_interfaces`. -/
def populate_ipv6_interfaces : IntfFacts → List (S × S) → Option IntfFacts
  | f, [] => some f
  | f, (k, v) :: rest =>
    match populate_ipv6_entry f k v with
    | some f1 => populate_ipv6_interfaces f1 rest
    | none => none

/-! ### LLDP neighbours -/

/-- Pattern `r"^Local Intf: (.+)$"` (with `re.M`) of `parse_lldp_intf`. -/
def lldpIntfRE : RE :=
  reSeq [.bol, rlit "Local Intf: ", .grp 1 (.plus pyDot), .eol]

/-- `Interfaces.parse_lldp_intf`. -/
def parse_lldp_intf (data : S) : Option S :=
  (reSearch true lldpIntfRE data).bind (fun r => capGet r data 1)

/-- Pattern `r"System Name: (.+)$"` (with `re.M`). -/
def lldpHostRE : RE :=
  reSeq [rlit "System Name: ", .grp 1 (.plus pyDot), .eol]

/-- `Interfaces.parse_lldp_host`. -/
def parse_lldp_host (data : S) : Option S :=
  (reSearch true lldpHostRE data).bind (fun r => capGet r data 1)

/-- Pattern `r"Port id: (.+)$"` (with `re.M`). -/
def lldpPortRE : RE :=
  reSeq [rlit "Port id: ", .grp 1 (.plus pyDot), .eol]

/-- `Interfaces.parse_lldp_port`. -/
def parse_lldp_port (data : S) : Option S :=
  (reSearch true lldpPortRE data).bind (fun r => capGet r data 1)

/-- Pattern `r"^    IP: (.+)$"` (with `re.M`). -/
def lldpIpRE : RE :=
  reSeq [.bol, rlit "    IP: ", .grp 1 (.plus pyDot), .eol]

/-- `Interfaces.parse_lldp_ip`. -/
def parse_lldp_ip (data : S) : Option S :=
  (reSearch true lldpIpRE data).bind (fun r => capGet r data 1)

/-- One LLDP neighbour entry. -/
structure LldpFact where
  host : Option S
  port : Option S
  ip : Option S
deriving Repr, DecidableEq

/-- The 48-dash separator `parse_neighbors` splits on. -/
def lldpSep : S :=
  List.replicate 48 '-'

/-- Worker for `Interfaces.parse_neighbors`: empty entries are skipped
(`continue`); an entry without a local-interface token returns the facts
accumulated SO FAR (early exit); otherwise the entry's record is appended
under the normalised interface key.  `norm` stands for the external
`normalize_interface` collaborator.

Modelled from the spec: `normalize_interface` itself lives outside this
file's source (`plugins/module_utils/network/ios/ios.py`); the spec
describes it only as a pure string canonicalisation, so it is taken as an
arbitrary function parameter. -/
def parse_neighbors_go (norm : S → S) :
    List S → List (S × List LldpFact) → List (S × List LldpFact)
  | [], facts => facts
  | e :: rest, facts =>
    if e == [] then parse_neighbors_go norm rest facts
    else
      match parse_lldp_intf e with
      | none => facts
      | some intf0 =>
        let intf := norm intf0
        let facts1 := if (alistGet facts intf).isSome then facts else alistSet facts intf []
        let f : LldpFact := ⟨parse_lldp_host e, parse_lldp_port e, parse_lldp_ip e⟩
        parse_neighbors_go norm rest
          (alistSet facts1 intf ((alistGet facts1 intf).getD [] ++ [f]))

/-- `Interfaces.parse_neighbors`. -/
def parse_neighbors (norm : S → S) (neighbors : S) : List (S × List LldpFact) :=
  parse_neighbors_go norm (pySplit lldpSep neighbors) []

/-! ### CPU utilization -/

/-- The verbose pattern of `Hardware.parse_cpu_utilization` (whitespace in
the source's pattern is `re.VERBOSE` formatting only):

    (^Core\s(?P<core>\d+)?:)?(^|\s)CPU\sutilization\sfor\sfive\sseconds:
    (\s(?P<f_sec>\d+)?%)?(\s(?P<f_se_nom>\d+)%/(?P<f_s_denom>\d+)%\)?)?
    ;\sone\sminute:\s(?P<a_min>\d+)?%;\sfive\sminutes:\s(?P<f_min>\d+)?%

Group numbering follows Python: core = 2, f_sec = 5, f_se_nom = 7,
f_s_denom = 8, a_min = 9, f_min = 10 (the enclosing plain groups 1, 3, 4, 6
are never read, so they carry no `grp` node here). -/
def cpuRE : RE :=
  reSeq [
    .opt (reSeq [.bol, rlit "Core", .cls pySpace, .opt (.grp 2 (.plus pyDigit)), rlit ":"]),
    .alt .bol (.cls pySpace),
    rlit "CPU", .cls pySpace, rlit "utilization", .cls pySpace, rlit "for",
    .cls pySpace, rlit "five", .cls pySpace, rlit "seconds:",
    .opt (reSeq [.cls pySpace, .opt (.grp 5 (.plus pyDigit)), rlit "%"]),
    .opt (reSeq [.cls pySpace, .grp 7 (.plus pyDigit), rlit "%/",
                 .grp 8 (.plus pyDigit), rlit "%", .opt (rlit ")")]),
    rlit ";", .cls pySpace, rlit "one", .cls pySpace, rlit "minute:",
    .cls pySpace, .opt (.grp 9 (.plus pyDigit)), rlit "%",
    rlit ";", .cls pySpace, rlit "five", .cls pySpace, rlit "minutes:",
    .cls pySpace, .opt (.grp 10 (.plus pyDigit)), rlit "%"]

/-- One per-core record of `cpu_utilization`. -/
structure CpuCore where
  five_seconds : Nat
  one_minute : Nat
  five_minutes : Nat
  five_seconds_interrupt : Option Nat := none
deriving Repr, DecidableEq

/-- Worker for `parse_cpu_utilization`.  On a matching line the source runs
`int(group("f_se_nom") or group("f_sec"))`, `int(group("a_min"))` and
`int(group("f_min"))`: when the needed group is `None` this is a `TypeError`
(`int(None)`), modelled as `none` for the whole call. -/
def parse_cpu_utilization_go : List S → List (S × CpuCore) → Option (List (S × CpuCore))
  | [], acc => some acc
  | line :: rest, acc =>
    match reMatchAt false cpuRE line 0 with
    | none => parse_cpu_utilization_go rest acc
    | some r =>
      let core :=
        match capGet r line 2 with
        | some c => "core_".toList ++ c
        | none => "core".toList
      match (capGet r line 7).orElse (fun _ => capGet r line 5) with
      | none => none
      | some fs =>
        match capGet r line 9, capGet r line 10 with
        | some am, some fm =>
          parse_cpu_utilization_go rest
            (alistSet acc core
              ⟨digitsToNat fs, digitsToNat am, digitsToNat fm,
               (capGet r line 8).map digitsToNat⟩)
        | _, _ => none

/-- `Hardware.parse_cpu_utilization` (iterates `data.split("\n")`). -/
def parse_cpu_utilization (data : S) : Option (List (S × CpuCore)) :=
  parse_cpu_utilization_go (pySplit ['\n'] data) []

/-! ### Spec-side helpers and concrete inputs -/

/-- Whether a line list is safe for `parse_interfaces`: scanning non-empty
lines in order, no space-initial line occurs before a key line has been
seen.  (`haveKey` records whether a key line has occurred.) -/
def goodLinesGo : Bool → List S → Bool
  | _, [] => true
  | haveKey, l :: rest =>
    match l with
    | [] => goodLinesGo haveKey rest
    | c :: _ =>
      if c == ' ' then haveKey && goodLinesGo haveKey rest
      else
        match keyOf l with
        | some _ => goodLinesGo true rest
        | none => goodLinesGo haveKey rest

/-- Safety predicate on raw `parse_interfaces` input. -/
def goodLines (data : S) : Bool :=
  goodLinesGo false (pySplit ['\n'] data)

/-- A `show memory statistics` processor line with 1048577 total bytes. -/
def memEx : S :=
  "Processor F339 1048577 700 524288".toList

/-- A `dir` output with 1048577 total bytes and 1048576 free bytes. -/
def fsEx : S :=
  "Directory of flash:/\n1048577 bytes total (1048576 bytes free)".toList

/-- A standard `show running-config` banner followed by configuration text. -/
def bannerEx : S :=
  "Building configuration...\nCurrent configuration : 59 bytes\n!\nhostname R1\nend\n".toList

/-- The only kind of text the mangled banner pattern can match: a line
`Building configuration` followed by sixteen spaces, three filler
characters, whitespace and the byte-count line. -/
def weirdBannerEx : S :=
  "Building configuration\n                xyz  Current configuration : 5 bytes\nrest".toList

/-- The two-line interface block of claim C3. -/
def c3Input : S :=
  "Gi0/1 line one\n  continuation".toList

/-- Error-marked command output whose first line is the indented
caret-marker line. -/
def errEx : S :=
  "        ^\n% Invalid input detected at marker.".toList

/-- Error-marked output in which the echoed command precedes the caret
line. -/
def echoErrEx : S :=
  "show ip interface\n        ^\n% Invalid input detected at marker.".toList

/-- An LLDP detail segment for local interface Gi0/1. -/
def c4seg1 : S :=
  "Local Intf: Gi0/1\nSystem Name: h1\n".toList

/-- An LLDP detail segment for local interface Gi0/2. -/
def c4seg3 : S :=
  "\nLocal Intf: Gi0/2\nSystem Name: h3\n".toList

/-- LLDP detail text splitting into three segments whose SECOND segment is
empty (two adjacent separators). -/
def c4Empty : S :=
  c4seg1 ++ lldpSep ++ lldpSep ++ c4seg3

/-- LLDP detail text splitting into three segments whose second segment is
non-empty but lacks a `Local Intf:` line. -/
def c4Mid : S :=
  c4seg1 ++ lldpSep ++ "\njunk segment\n".toList ++ lldpSep ++ c4seg3

/-- A `show ipv6 interface` block with two address lines followed by two
subnet lines. -/
def c6val : S :=
  "    A1, subnet\n    A2, subnet\n, subnet is S1\n, subnet is S2".toList

/-- An address-bearing block whose own status line reports `deleted`. -/
def c7val : S :=
  "Gi9 is deleted, line protocol is down".toList

/-- The facts state after the IPv4 pass lazily creates `Gi9` from `c7val`. -/
def c7out : IntfFacts :=
  { interfaces := some [("Gi9".toList, { ipv4 := some [], operstatus := some (some "deleted".toList) })] }

/-- The version/inventory text of claim C8. -/
def c8text : S :=
  "board ID FXS12345\nSystem Serial Number : ABC999\nModel Number : WS-C123".toList

/-- The CPU-utilization line of claim C10: accepted by the pattern with both
five-second groups (and the one/five-minute groups) absent. -/
def c10line : S :=
  "CPU utilization for five seconds:; one minute: %; five minutes: %".toList

/-- A fully populated CPU-utilization line (interrupt form). -/
def c10goodLine : S :=
  "CPU utilization for five seconds: 5%/3%; one minute: 7%; five minutes: 9%".toList

/-! ## Helper lemmas -/

/-- Lookup after assignment. -/
theorem alistGet_alistSet {α : Type} (m : List (S × α)) (k : S) (v : α) (k2 : S) :
    alistGet (alistSet m k v) k2 = if k == k2 then some v else alistGet m k2 := by
  induction m with
  | nil => simp [alistSet, alistGet]
  | cons p rest ih =>
    obtain ⟨k', v'⟩ := p
    by_cases h : k' = k
    · subst h
      by_cases h2 : k' = k2 <;> simp [alistSet, alistGet, h2]
    · by_cases h2 : k' = k2
      · subst h2
        have hne : ¬k = k' := fun e => h e.symm
        simp [alistSet, alistGet, h, hne]
      · simp [alistSet, alistGet, h, h2, ih]

/-- Lookup after assignment, same key. -/
theorem alistGet_alistSet_self {α : Type} (m : List (S × α)) (k : S) (v : α) :
    alistGet (alistSet m k v) k = some v := by
  simp [alistGet_alistSet]

/-- Every value the memory fold stores is an integer byte count divided by
1048576 (true division in `ℚ`). -/
theorem memFold_div (lines : List S) (acc : MemFacts)
    (h1 : ∀ q, acc.memtotal_mb = some q → ∃ n : ℕ, q = (n : ℚ) / 1048576)
    (h2 : ∀ q, acc.memfree_mb = some q → ∃ n : ℕ, q = (n : ℚ) / 1048576) :
    (∀ q, (List.foldl memLineStep acc lines).memtotal_mb = some q →
      ∃ n : ℕ, q = (n : ℚ) / 1048576) ∧
    (∀ q, (List.foldl memLineStep acc lines).memfree_mb = some q →
      ∃ n : ℕ, q = (n : ℚ) / 1048576) := by
  induction lines generalizing acc with
  | nil => exact ⟨h1, h2⟩
  | cons l ls ih =>
    simp only [List.foldl_cons]
    apply ih
    · intro q hq
      unfold memLineStep at hq
      cases hm : memLineMatch l with
      | none => rw [hm] at hq; exact h1 q hq
      | some tf =>
        rw [hm] at hq
        obtain ⟨t, fr⟩ := tf
        simp only [Option.some.injEq] at hq
        exact ⟨t, hq.symm⟩
    · intro q hq
      unfold memLineStep at hq
      cases hm : memLineMatch l with
      | none => rw [hm] at hq; exact h2 q hq
      | some tf =>
        rw [hm] at hq
        obtain ⟨t, fr⟩ := tf
        simp only [Option.some.injEq] at hq
        exact ⟨fr, hq.symm⟩

/-- The memory facts computed from `memEx` (1048577 total, 524288 free). -/
theorem memEx_populate :
    memPopulate memEx =
      { memtotal_mb := some (((1048577 : ℕ) : ℚ) / 1048576)
        memfree_mb := some (((524288 : ℕ) : ℚ) / 1048576) } := by
  unfold memPopulate
  rw [show (memEx == ([] : S)) = false from by decide,
      show pyContains memEx "Invalid input detected".toList = false from by decide,
      show pySplitLines memEx = [memEx] from by decide]
  simp only [Bool.false_eq_true, if_false, List.foldl]
  unfold memLineStep
  rw [show memLineMatch memEx = some (1048577, 524288) from by decide]

/-- The filesystem facts computed from `fsEx`. -/
theorem fsEx_info :
    parse_filesystems_info fsEx =
      some [("flash:".toList,
        { spacetotal_kb := some (((1048577 : ℕ) : ℚ) / 1024)
          spacefree_kb := some (((1048576 : ℕ) : ℚ) / 1024) })] := by
  unfold parse_filesystems_info
  rw [show pySplit ['\n'] fsEx =
      ["Directory of flash:/".toList, "1048577 bytes total (1048576 bytes free)".toList]
    from by decide]
  simp only [parse_filesystems_info_go]
  rw [show dirLineMatch "Directory of flash:/".toList = some "flash:".toList from by decide]
  simp only [parse_filesystems_info_go]
  rw [show dirLineMatch "1048577 bytes total (1048576 bytes free)".toList = none from by decide,
      show bytesLineMatch "1048577 bytes total (1048576 bytes free)".toList = some (1048577, 1048576)
        from by decide]
  simp only [alistSet, alistGet]
  norm_num

/-! ## Claim theorems -/

/-- Claim C1, counterexample: the claim says the byte-to-MB conversion is
truncating integer division, so `total = 1048577` should give
`memtotal_mb = 1`.  The code (with `from __future__ import division`) uses
true division: the stored value is `1048577 / 1048576 ≠ 1`. -/
theorem C1_counterexample :
    (memPopulate memEx).memtotal_mb = some (((1048577 : ℕ) : ℚ) / 1048576) ∧
    (((1048577 : ℕ) : ℚ) / 1048576) ≠ (1 : ℚ) := by
  constructor
  · rw [memEx_populate]
  · norm_num

/-- Claim C1, amended: the filesystem and memory conversions use TRUE
division (`/` under `from __future__ import division`) of the parsed byte
counts by 1024 and 1048576; every produced `memtotal_mb` / `memfree_mb`
value is an exact rational byte-count over 1048576.  In particular
`total = 1048577` bytes yields `memtotal_mb = 1048577 / 1048576` (not 1),
and a dir listing with 1048577 total / 1048576 free bytes yields
`spacetotal_kb = 1048577 / 1024` and `spacefree_kb = 1024`. -/
theorem C1_true_division :
    (∀ data q, (memPopulate data).memtotal_mb = some q → ∃ n : ℕ, q = (n : ℚ) / 1048576) ∧
    (∀ data q, (memPopulate data).memfree_mb = some q → ∃ n : ℕ, q = (n : ℚ) / 1048576) ∧
    memPopulate memEx =
      { memtotal_mb := some (((1048577 : ℕ) : ℚ) / 1048576)
        memfree_mb := some (((524288 : ℕ) : ℚ) / 1048576) } ∧
    parse_filesystems_info fsEx =
      some [("flash:".toList,
        { spacetotal_kb := some (((1048577 : ℕ) : ℚ) / 1024)
          spacefree_kb := some (((1048576 : ℕ) : ℚ) / 1024) })] := by
  refine ⟨?_, ?_, memEx_populate, fsEx_info⟩
  · intro data q h
    unfold memPopulate at h
    split at h
    · exact absurd h (by simp [MemFacts.memtotal_mb])
    · split at h
      · exact absurd h (by simp [MemFacts.memtotal_mb])
      · exact (memFold_div (pySplitLines data) {}
          (fun q hq => absurd hq (by simp [MemFacts.memtotal_mb]))
          (fun q hq => absurd hq (by simp [MemFacts.memfree_mb]))).1 q h
  · intro data q h
    unfold memPopulate at h
    split at h
    · exact absurd h (by simp [MemFacts.memfree_mb])
    · split at h
      · exact absurd h (by simp [MemFacts.memfree_mb])
      · exact (memFold_div (pySplitLines data) {}
          (fun q hq => absurd hq (by simp [MemFacts.memtotal_mb]))
          (fun q hq => absurd hq (by simp [MemFacts.memfree_mb]))).2 q h

/-- Claim C1, witness for the amended theorem's universal parts at the
concrete memory text. -/
theorem C1_witness :
    ∃ n : ℕ, (((1048577 : ℕ) : ℚ) / 1048576) = (n : ℚ) / 1048576 :=
  C1_true_division.1 memEx (((1048577 : ℕ) : ℚ) / 1048576) (by rw [memEx_populate])

/-- Claim C2 (code bug): the claim — and the evident intent of the source —
is that the `Building configuration...` / `Current configuration : N bytes`
banner is stripped from `show running-config` output.  The reformatted
triple-quoted pattern literally contains a newline plus sixteen spaces of
source indentation between `configuration` and `...`, so it can never match
the real banner: the config fact keeps the banner verbatim.  (The only text
the mangled pattern does strip is `weirdBannerEx`-shaped text containing
that literal newline-plus-indentation, confirming the embedding matches the
pattern's literal content.) -/
theorem C2_banner_not_stripped :
    config_populate bannerEx = some bannerEx ∧
    pyContains bannerEx "Building configuration...\nCurrent configuration : ".toList = true ∧
    config_populate weirdBannerEx = some "rest".toList := by
  decide

/-- Claim C8: the round-trip text yields `serialnum = "FXS12345"`,
`stacked_models = ["WS-C123"]`, `stacked_serialnums = ["ABC999"]` and
`virtual_switch = "STACK"`; in general `virtual_switch = "STACK"` is set
exactly when at least one stacked-model line matches. -/
theorem C8_stack_roundtrip :
    parse_serialnum c8text = some "FXS12345".toList ∧
    parse_stacks c8text =
      { stacked_models := some ["WS-C123".toList]
        stacked_serialnums := some ["ABC999".toList]
        virtual_switch := some "STACK".toList } ∧
    (∀ data, (parse_stacks data).virtual_switch = some "STACK".toList ↔
      reFindAllGrp true modelRE 1 data ≠ []) := by
  refine ⟨by decide, by decide, fun data => ?_⟩
  unfold parse_stacks
  by_cases h : reFindAllGrp true modelRE 1 data = [] <;> simp [h]

/-- Claim C9: `operatingmode` is "autonomous" exactly when the
`Router\soperating\smode: (\S+)` search succeeds with a word containing
"autonomous" case-insensitively, or `iostype = "IOS"`; otherwise it is
"controller".  In particular with `iostype = "IOS"` the result is always
"autonomous" — even when a present mode line says something else. -/
theorem C9_operatingmode :
    (∀ data iostype, parse_operatingmode data iostype =
      if (match (reSearch false opmodeRE data).bind (fun r => capGet r data 1) with
          | some w => pyContains (pyLower w) "autonomous".toList
          | none => false) || iostype == "IOS".toList
      then "autonomous".toList else "controller".toList) ∧
    (∀ data, parse_operatingmode data "IOS".toList = "autonomous".toList) ∧
    parse_operatingmode "Router operating mode: Controller-Managed".toList "IOS".toList =
      "autonomous".toList := by
  refine ⟨fun data iostype => rfl, fun data => ?_, by decide⟩
  unfold parse_operatingmode
  simp

/-- Claim C10: the CPU-utilization pattern accepts the line of `c10line`
with both five-second groups (5 and 7) absent, and on it
`parse_cpu_utilization` hits `int(None)` — a `TypeError` — instead of
returning a facts mapping; so the function is not total.  The last conjunct
shows a fully populated line does succeed (non-vacuity). -/
theorem C10_cpu_not_total :
    (reMatchAt false cpuRE c10line 0).isSome = true ∧
    ((reMatchAt false cpuRE c10line 0).bind (fun r => capGet r c10line 5)) = none ∧
    ((reMatchAt false cpuRE c10line 0).bind (fun r => capGet r c10line 7)) = none ∧
    parse_cpu_utilization c10line = none ∧
    parse_cpu_utilization c10goodLine =
      some [("core".toList, { five_seconds := 5, one_minute := 7, five_minutes := 9,
                              five_seconds_interrupt := some 3 })] := by
  decide

/-- Claim C3, counterexample: the claim says the block value dedents the
continuation line (`"Gi0/1 line one\ncontinuation"`); the code appends the
continuation line verbatim, leading whitespace included. -/
theorem C3_counterexample :
    parse_interfaces c3Input =
      some [("Gi0/1".toList, "Gi0/1 line one\n  continuation".toList)] ∧
    ("Gi0/1 line one\n  continuation".toList : S) ≠ "Gi0/1 line one\ncontinuation".toList := by
  decide

/-- Claim C3, amended: the two-line input produces a single block keyed
"Gi0/1" whose value is the input itself — the continuation line is kept
verbatim with its leading whitespace — and, for every input, an empty line
inside a block never terminates it: deleting an empty line anywhere in the
line list leaves the parse unchanged. -/
theorem C3_block_structure :
    parse_interfaces c3Input = some [("Gi0/1".toList, c3Input)] ∧
    (∀ (l1 l2 : List S) (key : S) (acc : List (S × S)),
      parse_interfaces_go (l1 ++ ([] : S) :: l2) key acc =
        parse_interfaces_go (l1 ++ l2) key acc) := by
  refine ⟨by decide, ?_⟩
  intro l1
  induction l1 with
  | nil => intro l2 key acc; simp [parse_interfaces_go]
  | cons line l1 ih =>
    intro l2 key acc
    cases line with
    | nil =>
      simp only [List.cons_append, parse_interfaces_go]
      exact ih l2 key acc
    | cons c cs =>
      simp only [List.cons_append, parse_interfaces_go]
      cases hc : (c == ' ') with
      | true =>
        simp only [if_true]
        cases alistGet acc key with
        | none => rfl
        | some v => exact ih l2 key (alistSet acc key (v ++ '\n' :: c :: cs))
      | false =>
        simp only [Bool.false_eq_true, if_false]
        cases keyOf (c :: cs) with
        | none => exact ih l2 key acc
        | some k => exact ih l2 k (alistSet acc k (c :: cs))

set_option maxRecDepth 8000 in
/-- Claim C4, counterexample: `c4Empty` splits into three segments whose
second segment is empty — it certainly lacks a `Local Intf:` line — yet the
output contains both the first AND the third segment's records: an empty
segment is skipped (`continue`), it does not truncate. -/
theorem C4_counterexample :
    pySplit lldpSep c4Empty = [c4seg1, [], c4seg3] ∧
    parse_neighbors id c4Empty =
      [("Gi0/1".toList, [{ host := some "h1".toList, port := none, ip := none }]),
       ("Gi0/2".toList, [{ host := some "h3".toList, port := none, ip := none }])] := by
  decide

set_option maxRecDepth 8000 in
/-- Claim C4, amended: an empty segment (adjacent separators) is skipped
without truncating, while the first NON-empty segment that fails to yield a
local-interface token returns the facts accumulated so far, discarding all
later segments; concretely, with a non-empty middle segment lacking
`Local Intf:` only the first segment's record survives. -/
theorem C4_truncation :
    (∀ (norm : S → S) (rest : List S) (facts : List (S × List LldpFact)),
      parse_neighbors_go norm (([] : S) :: rest) facts = parse_neighbors_go norm rest facts) ∧
    (∀ (norm : S → S) (e : S) (rest : List S) (facts : List (S × List LldpFact)),
      e ≠ [] → parse_lldp_intf e = none →
      parse_neighbors_go norm (e :: rest) facts = facts) ∧
    parse_neighbors id c4Mid =
      [("Gi0/1".toList, [{ host := some "h1".toList, port := none, ip := none }])] := by
  refine ⟨fun norm rest facts => by simp [parse_neighbors_go],
          fun norm e rest facts h1 h2 => ?_, by decide⟩
  simp [parse_neighbors_go, h1, h2]

/-- Claim C4, witness: a non-empty entry without a `Local Intf:` line
returns the input facts unchanged. -/
theorem C4_witness :
    parse_neighbors_go id ["junk".toList] [("Gi0/9".toList, [])] = [("Gi0/9".toList, [])] :=
  C4_truncation.2.1 id "junk".toList [] [("Gi0/9".toList, [])] (by decide) (by decide)

/-- Invariant proof for `parse_interfaces_go`: on a good line list (no
space-indented non-empty line before the first key line) the parser never
hits the `KeyError` branch. -/
theorem parse_go_good_isSome :
    ∀ (ls : List S) (haveKey : Bool) (key : S) (acc : List (S × S)),
      goodLinesGo haveKey ls = true →
      (haveKey = true → (alistGet acc key).isSome = true) →
      (parse_interfaces_go ls key acc).isSome = true := by
  intro ls
  induction ls with
  | nil => intro haveKey key acc _ _; simp [parse_interfaces_go]
  | cons l rest ih =>
    intro haveKey key acc hg hinv
    cases l with
    | nil =>
      simp only [goodLinesGo] at hg
      simp only [parse_interfaces_go]
      exact ih haveKey key acc hg hinv
    | cons c cs =>
      simp only [goodLinesGo] at hg
      simp only [parse_interfaces_go]
      cases hc : (c == ' ') with
      | true =>
        rw [hc] at hg
        simp only [if_true] at hg
        simp only [if_true]
        rw [Bool.and_eq_true] at hg
        obtain ⟨hk, hg2⟩ := hg
        have hsome := hinv hk
        cases halg : alistGet acc key with
        | none => rw [halg] at hsome; simp at hsome
        | some v =>
          exact ih haveKey key _ hg2
            (fun _ => by simp [alistGet_alistSet_self])
      | false =>
        rw [hc] at hg
        simp only [Bool.false_eq_true, if_false] at hg
        simp only [Bool.false_eq_true, if_false]
        cases hk : keyOf (c :: cs) with
        | none => rw [hk] at hg; exact ih haveKey key acc hg hinv
        | some k =>
          rw [hk] at hg
          exact ih true k _ hg (fun _ => by simp [alistGet_alistSet_self])

/-- Claim C5, counterexample: error-marked output whose first line is the
indented caret-marker line makes `parse_interfaces` raise `KeyError('')`
(the `parsed[key] +=` with the initial empty key), modelled as `none` —
the parse does not terminate with absent/default fields, and since
`Interfaces.populate` calls it unguarded, the exception aborts the whole
collection. -/
theorem C5_counterexample :
    parse_interfaces errEx = none ∧
    pyContains errEx "% Invalid input detected".toList = true := by
  decide

/-- Claim C5, amended: empty responses and error-marked responses whose
caret line is preceded by a non-indented line (e.g. the echoed command) are
tolerated, and in general `parse_interfaces` terminates without the
`KeyError` whenever no space-indented non-empty line precedes the first key
line; the claim fails only for responses whose first non-blank line is
indented (see the counterexample). -/
theorem C5_parse_robustness :
    parse_interfaces ([] : S) = some [] ∧
    parse_interfaces echoErrEx =
      some [("show".toList, "show ip interface\n        ^".toList),
            ("%".toList, "% Invalid input detected at marker.".toList)] ∧
    (∀ data : S, goodLines data = true → (parse_interfaces data).isSome = true) := by
  refine ⟨by decide, by decide, fun data h => ?_⟩
  unfold goodLines at h
  unfold parse_interfaces
  exact parse_go_good_isSome (pySplit ['\n'] data) false [] [] h (by simp)

/-- Claim C5, witness: a well-formed interface block parses successfully. -/
theorem C5_witness :
    (parse_interfaces "Gi0/1 up\n  MTU 1500".toList).isSome = true :=
  C5_parse_robustness.2.2 "Gi0/1 up\n  MTU 1500".toList (by decide)

/-- `applyDeletedStatus` only touches `operstatus`. -/
theorem applyDeletedStatus_operstatus (rec : IntfRecord) (value : S) :
    (applyDeletedStatus rec value).operstatus =
      if parse_operstatus value == some "deleted".toList
      then some (some "deleted".toList) else rec.operstatus := by
  unfold applyDeletedStatus
  split <;> simp_all

/-- `applyDeletedStatus` leaves `ipv4` unchanged. -/
theorem applyDeletedStatus_ipv4 (rec : IntfRecord) (value : S) :
    (applyDeletedStatus rec value).ipv4 = rec.ipv4 := by
  unfold applyDeletedStatus
  split <;> rfl

/-- `applyDeletedStatus` leaves `ipv6` unchanged. -/
theorem applyDeletedStatus_ipv6 (rec : IntfRecord) (value : S) :
    (applyDeletedStatus rec value).ipv6 = rec.ipv6 := by
  unfold applyDeletedStatus
  split <;> rfl

/-- The IPv6 address loop, given a present record with a present `ipv6`
list, always succeeds, appends exactly the stripped pairs in order, and
leaves `operstatus` unchanged. -/
theorem ipv6AddrLoop_spec :
    ∀ (pairs : List (S × S)) (f : IntfFacts) (key : S) (m : List (S × IntfRecord))
      (rec : IntfRecord) (l : List IPPair),
      f.interfaces = some m → alistGet m key = some rec → rec.ipv6 = some l →
      ∃ (f' : IntfFacts) (m' : List (S × IntfRecord)) (rec' : IntfRecord),
        ipv6AddrLoop key f pairs = some f' ∧ f'.interfaces = some m' ∧
        alistGet m' key = some rec' ∧
        rec'.ipv6 = some (l ++ pairs.map (fun p => (⟨pyStrip p.1, pyStrip p.2⟩ : IPPair))) ∧
        rec'.operstatus = rec.operstatus := by
  intro pairs
  induction pairs with
  | nil =>
    intro f key m rec l h1 h2 h3
    exact ⟨f, m, rec, by simp [ipv6AddrLoop], h1, h2, by simp [h3], rfl⟩
  | cons p rest ih =>
    intro f key m rec l h1 h2 h3
    obtain ⟨addr, subnet⟩ := p
    have hstep : ipv6AddrLoop key f ((addr, subnet) :: rest) =
        ipv6AddrLoop key
          { f with
            all_ipv6_addresses := f.all_ipv6_addresses ++ [pyStrip addr]
            interfaces := some (alistSet m key
              { rec with ipv6 := some (l ++ [⟨pyStrip addr, pyStrip subnet⟩]) }) }
          rest := by
      simp [ipv6AddrLoop, h1, h2, h3]
    obtain ⟨f', m', rec', hl, hi, hg, hip, hop⟩ :=
      ih { f with
            all_ipv6_addresses := f.all_ipv6_addresses ++ [pyStrip addr]
            interfaces := some (alistSet m key
              { rec with ipv6 := some (l ++ [⟨pyStrip addr, pyStrip subnet⟩]) }) }
        key (alistSet m key { rec with ipv6 := some (l ++ [⟨pyStrip addr, pyStrip subnet⟩]) })
        { rec with ipv6 := some (l ++ [⟨pyStrip addr, pyStrip subnet⟩]) }
        (l ++ [⟨pyStrip addr, pyStrip subnet⟩])
        rfl (alistGet_alistSet_self _ _ _) rfl
    refine ⟨f', m', rec', ?_, hi, hg, ?_, hop⟩
    · rw [hstep]; exact hl
    · rw [hip]; simp

/-- The IPv4 address loop never changes any record's `operstatus` (it only
appends to the record's `ipv4` list and the flat address list). -/
theorem ipv4AddrLoop_operstatus :
    ∀ (addrs : List S) (key : S) (f f' : IntfFacts) (m : List (S × IntfRecord))
      (rec : IntfRecord),
      ipv4AddrLoop key f addrs = some f' → f.interfaces = some m →
      alistGet m key = some rec →
      ∃ (m' : List (S × IntfRecord)) (rec' : IntfRecord),
        f'.interfaces = some m' ∧ alistGet m' key = some rec' ∧
        rec'.operstatus = rec.operstatus := by
  intro addrs
  induction addrs with
  | nil =>
    intro key f f' m rec hloop h1 h2
    simp only [ipv4AddrLoop, Option.some.injEq] at hloop
    subst hloop
    exact ⟨m, rec, h1, h2, rfl⟩
  | cons a rest ih =>
    intro key f f' m rec hloop h1 h2
    rcases hs : pySplit ['/'] a with _ | ⟨addr, _ | ⟨subnet, _ | _⟩⟩
    · rw [show ipv4AddrLoop key f (a :: rest) = none from by simp [ipv4AddrLoop, hs]] at hloop
      exact absurd hloop (by simp)
    · rw [show ipv4AddrLoop key f (a :: rest) = none from by simp [ipv4AddrLoop, hs]] at hloop
      exact absurd hloop (by simp)
    · cases hipv4 : rec.ipv4 with
      | none =>
        rw [show ipv4AddrLoop key f (a :: rest) = none from by
          simp [ipv4AddrLoop, hs, h1, h2, hipv4]] at hloop
        exact absurd hloop (by simp)
      | some l =>
        rw [show ipv4AddrLoop key f (a :: rest) =
            ipv4AddrLoop key
              { f with
                all_ipv4_addresses := f.all_ipv4_addresses ++ [pyStrip addr]
                interfaces := some (alistSet m key
                  { rec with ipv4 := some (l ++ [⟨pyStrip addr, pyStrip subnet⟩]) }) }
              rest from by
          simp [ipv4AddrLoop, hs, h1, h2, hipv4]] at hloop
        exact ih key _ f'
          (alistSet m key { rec with ipv4 := some (l ++ [⟨pyStrip addr, pyStrip subnet⟩]) })
          { rec with ipv4 := some (l ++ [⟨pyStrip addr, pyStrip subnet⟩]) }
          hloop rfl (alistGet_alistSet_self _ _ _)
    · rw [show ipv4AddrLoop key f (a :: rest) = none from by simp [ipv4AddrLoop, hs]] at hloop
      exact absurd hloop (by simp)

/-- Claim C6: IPv6 address/subnet pairing is positional — the code zips the
two `findall` capture lists, so the Nth pair is exactly (Nth address match,
Nth subnet match) however the lines are interleaved; for a lazily created
interface the record's `ipv6` list is precisely the stripped zip, and the
concrete 2-addresses-then-2-subnets block pairs A1–S1 and A2–S2. -/
theorem C6_positional_pairing :
    (∀ (value : S) (n : Nat) (z : S × S),
      ((ipv6Addresses value).zip (ipv6Subnets value)).get? n = some z ↔
        (ipv6Addresses value).get? n = some z.1 ∧ (ipv6Subnets value).get? n = some z.2) ∧
    (∀ (f : IntfFacts) (m : List (S × IntfRecord)) (key value : S),
      f.interfaces = some m → alistGet m key = none →
      ∃ (f' : IntfFacts) (m' : List (S × IntfRecord)) (rec : IntfRecord),
        populate_ipv6_entry f key value = some f' ∧ f'.interfaces = some m' ∧
        alistGet m' key = some rec ∧
        rec.ipv6 = some (((ipv6Addresses value).zip (ipv6Subnets value)).map
          (fun p => (⟨pyStrip p.1, pyStrip p.2⟩ : IPPair)))) ∧
    populate_ipv6_entry { interfaces := some [] } "Gi1".toList c6val =
      some { interfaces := some [("Gi1".toList,
               { ipv6 := some [⟨"A1".toList, "S1".toList⟩, ⟨"A2".toList, "S2".toList⟩] })]
             all_ipv6_addresses := ["A1".toList, "A2".toList] } := by
  refine ⟨fun value n z => List.get?_zip_eq_some _ _ _ _, ?_, by decide⟩
  intro f m key value h1 h2
  have hstep : populate_ipv6_entry f key value =
      ipv6AddrLoop key
        { f with interfaces := some (alistSet m key (applyDeletedStatus { ipv6 := some [] } value)) }
        ((ipv6Addresses value).zip (ipv6Subnets value)) := by
    simp [populate_ipv6_entry, h1, h2]
  obtain ⟨f', m', rec', hl, hi, hg, hip, hop⟩ :=
    ipv6AddrLoop_spec ((ipv6Addresses value).zip (ipv6Subnets value))
      { f with interfaces := some (alistSet m key (applyDeletedStatus { ipv6 := some [] } value)) }
      key (alistSet m key (applyDeletedStatus { ipv6 := some [] } value))
      (applyDeletedStatus { ipv6 := some [] } value)
      [] rfl (alistGet_alistSet_self _ _ _) (by rw [applyDeletedStatus_ipv6])
  exact ⟨f', m', rec', by rw [hstep]; exact hl, hi, hg, by rw [hip]; simp⟩

/-- Claim C6, witness: the second conjunct applied to the concrete block. -/
theorem C6_witness :
    ∃ (f' : IntfFacts) (m' : List (S × IntfRecord)) (rec : IntfRecord),
      populate_ipv6_entry { interfaces := some [] } "Gi1".toList c6val = some f' ∧
      f'.interfaces = some m' ∧ alistGet m' "Gi1".toList = some rec ∧
      rec.ipv6 = some (((ipv6Addresses c6val).zip (ipv6Subnets c6val)).map
        (fun p => (⟨pyStrip p.1, pyStrip p.2⟩ : IPPair))) :=
  C6_positional_pairing.2.1 { interfaces := some [] } [] "Gi1".toList c6val rfl rfl

/-- Claim C7: when an interface name is absent from the primary parse, the
IPv4/IPv6 pass lazily creates a fresh record, and its `operstatus` is
back-filled exactly when the address-bearing block's own status line parses
to "deleted"; otherwise the key stays absent.  The two concrete conjuncts
show the deleted and the non-deleted case. -/
theorem C7_lazy_backfill :
    (∀ (f : IntfFacts) (m : List (S × IntfRecord)) (key value : S) (f' : IntfFacts),
      f.interfaces = some m → alistGet m key = none →
      populate_ipv4_entry f key value = some f' →
      ∃ (m' : List (S × IntfRecord)) (rec : IntfRecord),
        f'.interfaces = some m' ∧ alistGet m' key = some rec ∧
        rec.operstatus =
          (if parse_operstatus value == some "deleted".toList
           then some (some "deleted".toList) else none)) ∧
    (∀ (f : IntfFacts) (m : List (S × IntfRecord)) (key value : S) (f' : IntfFacts),
      f.interfaces = some m → alistGet m key = none →
      populate_ipv6_entry f key value = some f' →
      ∃ (m' : List (S × IntfRecord)) (rec : IntfRecord),
        f'.interfaces = some m' ∧ alistGet m' key = some rec ∧
        rec.operstatus =
          (if parse_operstatus value == some "deleted".toList
           then some (some "deleted".toList) else none)) ∧
    populate_ipv4_entry { interfaces := some [] } "Gi9".toList c7val = some c7out ∧
    populate_ipv4_entry { interfaces := some [] } "Gi8".toList
        "Gi8 is up, line protocol is up".toList =
      some { interfaces := some [("Gi8".toList, { ipv4 := some [] })] } := by
  refine ⟨?_, ?_, by decide, by decide⟩
  · intro f m key value f' h1 h2 hp
    cases hprim : reFindAllGrp true internetAddrRE 1 value with
    | nil =>
      rw [show populate_ipv4_entry f key value =
          some { f with
                 interfaces :=
                   some (alistSet m key (applyDeletedStatus { ipv4 := some [] } value)) }
        from by simp [populate_ipv4_entry, h1, h2, hprim]] at hp
      simp only [Option.some.injEq] at hp
      subst hp
      exact ⟨alistSet m key (applyDeletedStatus { ipv4 := some [] } value),
             applyDeletedStatus { ipv4 := some [] } value,
             rfl, alistGet_alistSet_self _ _ _, by rw [applyDeletedStatus_operstatus]⟩
    | cons p ps =>
      rw [show populate_ipv4_entry f key value =
          ipv4AddrLoop key
            { f with
              interfaces :=
                some (alistSet m key (applyDeletedStatus { ipv4 := some [] } value)) }
            (reFindAllGrp true secondaryAddrRE 1 value ++ [p])
        from by simp [populate_ipv4_entry, h1, h2, hprim]] at hp
      obtain ⟨m', rec', hi, hg, hop⟩ :=
        ipv4AddrLoop_operstatus (reFindAllGrp true secondaryAddrRE 1 value ++ [p]) key _ f'
          (alistSet m key (applyDeletedStatus { ipv4 := some [] } value))
          (applyDeletedStatus { ipv4 := some [] } value)
          hp rfl (alistGet_alistSet_self _ _ _)
      exact ⟨m', rec', hi, hg, by rw [hop, applyDeletedStatus_operstatus]⟩
  · intro f m key value f' h1 h2 hp
    rw [show populate_ipv6_entry f key value =
        ipv6AddrLoop key
          { f with
            interfaces :=
              some (alistSet m key (applyDeletedStatus { ipv6 := some [] } value)) }
          ((ipv6Addresses value).zip (ipv6Subnets value))
      from by simp [populate_ipv6_entry, h1, h2]] at hp
    obtain ⟨f'', m', rec', hl, hi, hg, hip, hop⟩ :=
      ipv6AddrLoop_spec ((ipv6Addresses value).zip (ipv6Subnets value))
        { f with
          interfaces :=
            some (alistSet m key (applyDeletedStatus { ipv6 := some [] } value)) }
        key (alistSet m key (applyDeletedStatus { ipv6 := some [] } value))
        (applyDeletedStatus { ipv6 := some [] } value)
        [] rfl (alistGet_alistSet_self _ _ _) (by rw [applyDeletedStatus_ipv6])
    rw [hl] at hp
    simp only [Option.some.injEq] at hp
    subst hp
    exact ⟨m', rec', hi, hg, by rw [hop, applyDeletedStatus_operstatus]⟩

/-- Claim C7, witness: the IPv4 conjunct applied to the deleted-status
block. -/
theorem C7_witness :
    ∃ (m' : List (S × IntfRecord)) (rec : IntfRecord),
      c7out.interfaces = some m' ∧ alistGet m' "Gi9".toList = some rec ∧
      rec.operstatus =
        (if parse_operstatus c7val == some "deleted".toList
         then some (some "deleted".toList) else none) :=
  C7_lazy_backfill.1 { interfaces := some [] } [] "Gi9".toList c7val c7out rfl rfl (by decide)
